import Mathlib

/-!
Shallow embedding of the training orchestration core of
`examples/dreambooth/train_dreambooth.py` and proofs about it.

Strings are modelled as `List Char`; Python `str.replace` with a
one-character pattern is a map, `str.replace(p, "")` for a one-character
pattern is a filter, and `str.replace(",,", ",")` is a left-to-right
non-overlapping rewrite.  Python `str.isdigit` agrees with `Char.isDigit`
on the ASCII inputs that occur here.
-/

namespace TrainDreambooth

/-- Python `s.replace(String.singleton a, String.singleton b)`:
replace every occurrence of the character `a` by the character `b`. -/
def replaceChar (a b : Char) (s : List Char) : List Char :=
  s.map (fun c => if c = a then b else c)

/-- Python `s.replace(String.singleton a, "")`: delete every occurrence of
the character `a`. -/
def removeChar (a : Char) (s : List Char) : List Char :=
  s.filter (fun c => c ≠ a)

/-- Python `s.replace(",,", ",")`: one left-to-right non-overlapping pass
replacing each pair of adjacent commas by a single comma. -/
def collapseCommasOnce : List Char → List Char
  | [] => []
  | [c] => [c]
  | c1 :: c2 :: rest =>
    if c1 = ',' ∧ c2 = ',' then ',' :: collapseCommasOnce rest
    else c1 :: collapseCommasOnce (c2 :: rest)

/-- Python `''.join([i for i in filename if not i.isdigit()])`. -/
def stripDigits (s : List Char) : List Char :=
  s.filter (fun c => ¬ c.isDigit)

/-- Prompt derivation of `SubfolderModeDataset.__getitem__`
(train_dreambooth.py lines 363-370): strip digits, underscores to spaces,
delete parentheses and hyphens, then three comma-collapsing passes. -/
def derivePromptSubfolder (stem : List Char) : List Char :=
  collapseCommasOnce (collapseCommasOnce (collapseCommasOnce
    (removeChar '-' (removeChar ')' (removeChar '('
      (replaceChar '_' ' ' (stripDigits stem)))))))

/-- Prompt derivation of `DreamBoothDataset.__getitem__`
(train_dreambooth.py lines 470-476): identical to the subfolder-mode
derivation except that no comma-collapsing passes are applied. -/
def derivePromptFlat (stem : List Char) : List Char :=
  removeChar '-' (removeChar ')' (removeChar '('
    (replaceChar '_' ' ' (stripDigits stem))))

/-- The mutable configuration fields that the subfolder-mode override
(train_dreambooth.py lines 603-606) touches or reads. -/
structure ArgsOverride where
  subfolder_mode : Bool
  image_captions_filename : Bool
  with_prior_preservation : Bool
  prior_loss_weight : ℚ

/-- `main` lines 603-606: when `--subfolder_mode` is set, force
filename captions, prior preservation, and a prior loss weight of 1.0. -/
def applySubfolderOverrides (a : ArgsOverride) : ArgsOverride :=
  if a.subfolder_mode then
    { a with image_captions_filename := true,
             with_prior_preservation := true,
             prior_loss_weight := 1 }
  else a

/-- C6 counterexample: the claim asserts the filename
`sks_person (2).jpg` (stem `sks_person (2)`) yields the prompt
`sks person`, but the code yields `sks person ` with a trailing space:
removing the digit and the parentheses leaves the space that stood
before the opening parenthesis, and nothing trims whitespace. -/
theorem derivePromptSubfolder_trailing_space :
    derivePromptSubfolder ("sks_person (2)".toList) ≠ "sks person".toList ∧
    derivePromptSubfolder ("sks_person (2)".toList) = "sks person ".toList := by
  constructor
  · decide
  · decide

/-- C6 (amended): the subfolder-mode derivation strips digits, maps
underscores to spaces, deletes parentheses and hyphens and collapses
repeated commas; the flat-mode derivation does the same without comma
collapsing.  The stem `sks_person (2)` yields `sks person ` with a
trailing space, and `a,,b,,c` yields `a,b,c` in subfolder mode while
flat mode leaves its commas untouched. -/
theorem derivePrompt_examples :
    derivePromptSubfolder ("sks_person (2)".toList) = "sks person ".toList ∧
    derivePromptSubfolder ("a,,b,,c".toList) = "a,b,c".toList ∧
    derivePromptFlat ("sks_person (2)".toList) = "sks person ".toList ∧
    derivePromptFlat ("a,,b,,c".toList) = "a,,b,,c".toList := by
  refine ⟨by decide, by decide, by decide, by decide⟩

/-- C10: whenever subfolder mode is selected, prior preservation and
filename captions are forced on and the prior loss weight is forced to
1.0, regardless of the command-line values of those fields. -/
theorem subfolder_mode_overrides (a : ArgsOverride)
    (h : a.subfolder_mode = true) :
    (applySubfolderOverrides a).with_prior_preservation = true ∧
    (applySubfolderOverrides a).image_captions_filename = true ∧
    (applySubfolderOverrides a).prior_loss_weight = 1 := by
  simp [applySubfolderOverrides, h]

/-- Witness for C10 at a configuration that sets none of the overridden
fields on the command line. -/
theorem subfolder_mode_overrides_witness :
    (ArgsOverride.mk true false false (7/2)).subfolder_mode = true ∧
    ((applySubfolderOverrides (ArgsOverride.mk true false false (7/2))).with_prior_preservation = true ∧
     (applySubfolderOverrides (ArgsOverride.mk true false false (7/2))).image_captions_filename = true ∧
     (applySubfolderOverrides (ArgsOverride.mk true false false (7/2))).prior_loss_weight = 1) :=
  ⟨rfl, subfolder_mode_overrides (ArgsOverride.mk true false false (7/2)) rfl⟩

/-- `ClassDataProvider` state (train_dreambooth.py lines 267-288): the
ordered list of class image paths found in the class directory and the
round-robin cursor.  The element type stands for filesystem paths. -/
structure ClassDataProvider (α : Type) where
  class_images : List α
  cursor : Nat
deriving DecidableEq

/-- `ClassDataProvider.__init__`: record the non-directory entries of
the class directory (passed here as `files`), start the cursor at 0,
and fail when the directory holds no images. -/
def ClassDataProvider.init {α : Type} (files : List α) :
    Except String (ClassDataProvider α) :=
  if files.length ≤ 0 then Except.error "Empty class directory"
  else Except.ok ⟨files, 0⟩

/-- `ClassDataProvider.take_one`: return the image under the cursor and
advance the cursor by one modulo the number of images; `none` models
the IndexError Python would raise were the cursor out of range. -/
def ClassDataProvider.take_one {α : Type} (p : ClassDataProvider α) :
    Option (α × ClassDataProvider α) :=
  match p.class_images.get? p.cursor with
  | none => none
  | some r => some (r, ⟨p.class_images, (p.cursor + 1) % p.class_images.length⟩)

/-- Iterate `take_one` `n` times, collecting the returned image paths. -/
def ClassDataProvider.takeMany {α : Type} :
    Nat → ClassDataProvider α → Option (List α × ClassDataProvider α)
  | 0, p => some ([], p)
  | n + 1, p =>
    match p.take_one with
    | none => none
    | some (x, p') =>
      match ClassDataProvider.takeMany n p' with
      | none => none
      | some (xs, q) => some (x :: xs, q)

lemma ClassDataProvider.take_one_at {α : Type} (files : List α) (c : Nat)
    (hc : c < files.length) :
    ClassDataProvider.take_one (⟨files, c⟩ : ClassDataProvider α)
      = some (files[c], ⟨files, (c + 1) % files.length⟩) := by
  simp [ClassDataProvider.take_one, List.getElem?_eq_getElem hc]

lemma ClassDataProvider.takeMany_zero {α : Type} (p : ClassDataProvider α) :
    ClassDataProvider.takeMany 0 p = some ([], p) := rfl

lemma ClassDataProvider.takeMany_succ {α : Type} (n : Nat)
    (p : ClassDataProvider α) :
    ClassDataProvider.takeMany (n + 1) p
      = match p.take_one with
        | none => none
        | some (x, p') =>
          match ClassDataProvider.takeMany n p' with
          | none => none
          | some (xs, q) => some (x :: xs, q) := rfl

/-- From any in-range cursor `c`, the remaining `files.length - c` calls
return the suffix of the image list in order and park the cursor back
at 0. -/
lemma ClassDataProvider.takeMany_from {α : Type} (files : List α) :
    ∀ d c, c + d = files.length → c < files.length →
      ClassDataProvider.takeMany d (⟨files, c⟩ : ClassDataProvider α)
        = some (files.drop c, ⟨files, 0⟩) := by
  intro d
  induction d with
  | zero => intro c h hc; omega
  | succ d ih =>
    intro c h hc
    rw [ClassDataProvider.takeMany_succ, ClassDataProvider.take_one_at files c hc]
    dsimp only
    by_cases hlast : c + 1 = files.length
    · have hd : d = 0 := by omega
      subst hd
      have hmod : (c + 1) % files.length = 0 := by
        rw [hlast, Nat.mod_self]
      rw [hmod, ClassDataProvider.takeMany_zero]
      dsimp only
      have hdrop : files.drop c = [files[c]] := by
        rw [List.drop_eq_getElem_cons hc]
        have : files.drop (c + 1) = [] := by
          rw [hlast, List.drop_length]
        rw [this]
      rw [hdrop]
    · have hlt : c + 1 < files.length := by omega
      have hmod : (c + 1) % files.length = c + 1 := Nat.mod_eq_of_lt hlt
      rw [hmod, ih (c + 1) (by omega) hlt]
      dsimp only
      rw [← List.drop_eq_getElem_cons hc]

/-- Running `m + n` calls is running `m` calls and then `n` more. -/
lemma ClassDataProvider.takeMany_add {α : Type} (m n : Nat)
    (p : ClassDataProvider α) :
    ClassDataProvider.takeMany (m + n) p
      = match ClassDataProvider.takeMany m p with
        | none => none
        | some (xs, q) =>
          match ClassDataProvider.takeMany n q with
          | none => none
          | some (ys, r) => some (xs ++ ys, r) := by
  induction m generalizing p with
  | zero =>
    rw [Nat.zero_add, ClassDataProvider.takeMany_zero]
    dsimp only
    cases hn : ClassDataProvider.takeMany n p with
    | none => rfl
    | some v => cases v; rfl
  | succ m ih =>
    have harith : m + 1 + n = (m + n) + 1 := by omega
    rw [harith, ClassDataProvider.takeMany_succ, ClassDataProvider.takeMany_succ]
    cases ht : p.take_one with
    | none => rfl
    | some v =>
      obtain ⟨x, p'⟩ := v
      dsimp only
      rw [ih p']
      cases hm : ClassDataProvider.takeMany m p' with
      | none => rfl
      | some w =>
        obtain ⟨xs, q⟩ := w
        dsimp only
        cases hn : ClassDataProvider.takeMany n q with
        | none => rfl
        | some u => cases u; rfl

/-- C2: for a class directory holding `k ≥ 1` images, construction
succeeds with the cursor at 0; from any in-range cursor, `take_one`
succeeds and advances the cursor by one modulo `k`, keeping it in
range; `k` consecutive `take_one` calls return the `k` image paths in
order (each exactly once), returning the cursor to 0; the `(k+1)`-th
call repeats the first image; and construction over an empty class
directory fails with an error. -/
theorem classDataProvider_round_robin {α : Type} (files : List α)
    (hpos : 0 < files.length) :
    ClassDataProvider.init files = Except.ok ⟨files, 0⟩
    ∧ (∀ c (hc : c < files.length),
        ClassDataProvider.take_one (⟨files, c⟩ : ClassDataProvider α)
          = some (files[c], ⟨files, (c + 1) % files.length⟩)
        ∧ (c + 1) % files.length < files.length)
    ∧ ClassDataProvider.takeMany files.length
        (⟨files, 0⟩ : ClassDataProvider α) = some (files, ⟨files, 0⟩)
    ∧ ClassDataProvider.takeMany (files.length + 1)
        (⟨files, 0⟩ : ClassDataProvider α)
        = some (files ++ files.take 1, ⟨files, 1 % files.length⟩)
    ∧ ClassDataProvider.init ([] : List α)
        = Except.error "Empty class directory" := by
  have hfull : ClassDataProvider.takeMany files.length
      (⟨files, 0⟩ : ClassDataProvider α) = some (files, ⟨files, 0⟩) := by
    have := ClassDataProvider.takeMany_from files files.length 0 (by omega) hpos
    simpa using this
  refine ⟨?_, ?_, hfull, ?_, ?_⟩
  · rw [ClassDataProvider.init, if_neg (by omega)]
  · intro c hc
    exact ⟨ClassDataProvider.take_one_at files c hc, Nat.mod_lt _ hpos⟩
  · rw [ClassDataProvider.takeMany_add files.length 1, hfull]
    have h1 : ClassDataProvider.takeMany 1 (⟨files, 0⟩ : ClassDataProvider α)
        = some (files.take 1, ⟨files, 1 % files.length⟩) := by
      rw [ClassDataProvider.takeMany_succ, ClassDataProvider.take_one_at files 0 hpos]
      dsimp only
      rw [ClassDataProvider.takeMany_zero]
      cases files with
      | nil => simp at hpos
      | cons a t => rfl
    dsimp only
    rw [h1]
  · rw [ClassDataProvider.init, if_pos (by simp)]

/-- Witness for C2 over a concrete three-image class directory. -/
theorem classDataProvider_round_robin_witness :
    0 < ([10, 20, 30] : List Nat).length
    ∧ (ClassDataProvider.init [10, 20, 30]
        = Except.ok (⟨[10, 20, 30], 0⟩ : ClassDataProvider Nat)
      ∧ (∀ c (hc : c < ([10, 20, 30] : List Nat).length),
          ClassDataProvider.take_one (⟨[10, 20, 30], c⟩ : ClassDataProvider Nat)
            = some (([10, 20, 30] : List Nat)[c],
                ⟨[10, 20, 30], (c + 1) % ([10, 20, 30] : List Nat).length⟩)
          ∧ (c + 1) % ([10, 20, 30] : List Nat).length
              < ([10, 20, 30] : List Nat).length)
      ∧ ClassDataProvider.takeMany ([10, 20, 30] : List Nat).length
          (⟨[10, 20, 30], 0⟩ : ClassDataProvider Nat)
          = some ([10, 20, 30], ⟨[10, 20, 30], 0⟩)
      ∧ ClassDataProvider.takeMany (([10, 20, 30] : List Nat).length + 1)
          (⟨[10, 20, 30], 0⟩ : ClassDataProvider Nat)
          = some ([10, 20, 30] ++ ([10, 20, 30] : List Nat).take 1,
              ⟨[10, 20, 30], 1 % ([10, 20, 30] : List Nat).length⟩)
      ∧ ClassDataProvider.init ([] : List Nat)
          = Except.error "Empty class directory") :=
  ⟨by decide, classDataProvider_round_robin [10, 20, 30] (by decide)⟩

/-- One class subfolder of the instance root in subfolder mode: the
image-file count of each of its group subdirectories, and the number
of images its `ClassDataProvider` finds under
`class_data_root/<name>`. -/
structure ClassSubdir where
  groupDirs : List Nat
  classDirFiles : Nat

/-- Per-class body of `SubfolderModeDataset.__init__` (lines 321-335):
for each class subfolder in order, construct its class data provider
(failing on an empty class directory), then, when group subdirectories
exist, enforce the cap of 5 and collect their image paths.  Returns
the number of instance images collected. -/
def subfolderScanClasses : List ClassSubdir → Nat → Except String Nat
  | [], acc => Except.ok acc
  | c :: rest, acc =>
    if c.classDirFiles ≤ 0 then Except.error "Empty class directory"
    else
      if 0 < c.groupDirs.length then
        if 5 < c.groupDirs.length then
          Except.error "Instance image directories exceed memory limit"
        else subfolderScanClasses rest (acc + c.groupDirs.sum)
      else subfolderScanClasses rest acc

/-- `SubfolderModeDataset.__init__` (lines 313-338): fail when the
instance root has no class subfolders or more than 3 of them;
otherwise scan the class subfolders. -/
def mkSubfolderModeDataset (classes : List ClassSubdir) : Except String Nat :=
  if classes.length ≤ 0 then
    Except.error "Instance image root directory does not have any class subfolders"
  else if 3 < classes.length then
    Except.error "Class subfolders exceed memory limit"
  else subfolderScanClasses classes 0

/-- Whether a fallible construction succeeded. -/
def exceptOk {ε α : Type} : Except ε α → Bool
  | Except.ok _ => true
  | Except.error _ => false

lemma subfolderScanClasses_ok (l : List ClassSubdir) :
    ∀ acc, exceptOk (subfolderScanClasses l acc) = true ↔
      ∀ c ∈ l, c.groupDirs.length ≤ 5 ∧ 1 ≤ c.classDirFiles := by
  induction l with
  | nil => intro acc; simp [subfolderScanClasses, exceptOk]
  | cons c rest ih =>
    intro acc
    simp only [subfolderScanClasses]
    by_cases h1 : c.classDirFiles ≤ 0
    · rw [if_pos h1]
      simp only [exceptOk, List.mem_cons]
      constructor
      · intro h; simp at h
      · intro h
        have := (h c (Or.inl rfl)).2
        omega
    · rw [if_neg h1]
      by_cases h2 : 0 < c.groupDirs.length
      · rw [if_pos h2]
        by_cases h3 : 5 < c.groupDirs.length
        · rw [if_pos h3]
          simp only [exceptOk, List.mem_cons]
          constructor
          · intro h; simp at h
          · intro h
            have := (h c (Or.inl rfl)).1
            omega
        · rw [if_neg h3, ih]
          simp only [List.mem_cons]
          constructor
          · intro h x hx
            cases hx with
            | inl he => subst he; exact ⟨by omega, by omega⟩
            | inr hm => exact h x hm
          · intro h x hx
            exact h x (Or.inr hx)
      · rw [if_neg h2, ih]
        simp only [List.mem_cons]
        constructor
        · intro h x hx
          cases hx with
          | inl he => subst he; exact ⟨by omega, by omega⟩
          | inr hm => exact h x hm
        · intro h x hx
          exact h x (Or.inr hx)

/-- C7: subfolder-mode dataset construction succeeds exactly when the
instance root has between 1 and 3 class subfolders, every class
subfolder has at most 5 group subdirectories, and every class data
directory is non-empty; in particular it fails with more than 3 class
subfolders, with any class subfolder holding more than 5 group
subdirectories, or with zero class subfolders, and it succeeds at the
boundary values 3 and 5 when the other preconditions hold. -/
theorem subfolder_directory_caps (classes : List ClassSubdir) :
    exceptOk (mkSubfolderModeDataset classes) = true ↔
      (1 ≤ classes.length ∧ classes.length ≤ 3 ∧
        ∀ c ∈ classes, c.groupDirs.length ≤ 5 ∧ 1 ≤ c.classDirFiles) := by
  rw [mkSubfolderModeDataset]
  by_cases h0 : classes.length ≤ 0
  · rw [if_pos h0]
    simp only [exceptOk]
    constructor
    · intro h; simp at h
    · rintro ⟨ha, -, -⟩; exact absurd ha (by omega)
  · rw [if_neg h0]
    by_cases h3 : 3 < classes.length
    · rw [if_pos h3]
      simp only [exceptOk]
      constructor
      · intro h; simp at h
      · rintro ⟨-, hb, -⟩; exact absurd hb (by omega)
    · rw [if_neg h3, subfolderScanClasses_ok]
      constructor
      · intro h; exact ⟨by omega, by omega, h⟩
      · intro h; exact h.2.2

/-- One dataset example as produced by `__getitem__`: tokenized
instance and class prompts plus the two image tensors (abstracted as a
type parameter). -/
structure TrainExample (π : Type) where
  instance_prompt_ids : List Nat
  instance_images : π
  class_prompt_ids : List Nat
  class_images : π

/-- `tokenizer.pad(..., padding=True)` (line 747): pad every token-id
sequence on the right with the pad token up to the longest sequence in
the batch. -/
def padToLongest (padTok : Nat) (ids : List (List Nat)) : List (List Nat) :=
  ids.map (fun l => l ++ List.replicate ((ids.map List.length).foldr max 0 - l.length) padTok)

/-- `collate_fn` (lines 734-753): the instance ids and pixels of all
examples come first; when prior preservation is on, the class ids and
pixels of the same examples are appended after them; token ids are
padded to the longest sequence in the batch. -/
def collate_fn {π : Type} (with_prior_preservation : Bool) (padTok : Nat)
    (examples : List (TrainExample π)) : List (List Nat) × List π :=
  let input_ids := examples.map (fun e => e.instance_prompt_ids)
    ++ (if with_prior_preservation then
          examples.map (fun e => e.class_prompt_ids) else [])
  let pixel_values := examples.map (fun e => e.instance_images)
    ++ (if with_prior_preservation then
          examples.map (fun e => e.class_images) else [])
  (padToLongest padTok input_ids, pixel_values)

lemma le_foldr_max (l : List Nat) : ∀ x ∈ l, x ≤ l.foldr max 0 := by
  induction l with
  | nil => intro x hx; simp at hx
  | cons a t ih =>
    intro x hx
    cases hx with
    | head => exact le_max_left _ _
    | tail _ hm => exact le_trans (ih x hm) (le_max_right _ _)

lemma padToLongest_row_length (padTok : Nat) (ids : List (List Nat)) :
    ∀ l ∈ padToLongest padTok ids,
      l.length = (ids.map List.length).foldr max 0 := by
  intro l hl
  simp only [padToLongest, List.mem_map] at hl
  obtain ⟨a, ha, rfl⟩ := hl
  have hle : a.length ≤ (ids.map List.length).foldr max 0 :=
    le_foldr_max _ _ (List.mem_map_of_mem List.length ha)
  simp [List.length_append, List.length_replicate]
  omega

lemma padToLongest_keeps (padTok : Nat) (ids : List (List Nat)) :
    ∀ pr ∈ ids.zip (padToLongest padTok ids), pr.2.take pr.1.length = pr.1 := by
  intro pr hpr
  have hz : ids.zip (padToLongest padTok ids)
      = ids.map (fun l =>
          (l, l ++ List.replicate ((ids.map List.length).foldr max 0 - l.length) padTok)) := by
    have := List.zip_map' (fun l : List Nat => l)
      (fun l : List Nat =>
        l ++ List.replicate ((ids.map List.length).foldr max 0 - l.length) padTok) ids
    simpa [padToLongest, List.map_id] using this
  rw [hz] at hpr
  simp only [List.mem_map] at hpr
  obtain ⟨a, _, rfl⟩ := hpr
  simp [List.take_left]

/-- C8: with prior preservation on, the collated batch over `B`
examples has pixel and token-id lists of length `2B`, with all `B`
instance entries first and all `B` class entries after them (not
interleaved); every padded token row has the length of the longest
sequence in the batch and starts with its original (unpadded) ids.
With prior preservation off the batch length is `B`. -/
theorem collate_prior_concat {π : Type} (padTok : Nat)
    (examples : List (TrainExample π)) :
    ((collate_fn true padTok examples).2).length = 2 * examples.length
    ∧ (collate_fn true padTok examples).2.take examples.length
        = examples.map (fun e => e.instance_images)
    ∧ (collate_fn true padTok examples).2.drop examples.length
        = examples.map (fun e => e.class_images)
    ∧ ((collate_fn true padTok examples).1).length = 2 * examples.length
    ∧ (∀ l ∈ (collate_fn true padTok examples).1,
        l.length = (((examples.map (fun e => e.instance_prompt_ids)
          ++ examples.map (fun e => e.class_prompt_ids)).map List.length).foldr max 0))
    ∧ (∀ pr ∈ (examples.map (fun e => e.instance_prompt_ids)
          ++ examples.map (fun e => e.class_prompt_ids)).zip
            (collate_fn true padTok examples).1,
        pr.2.take pr.1.length = pr.1)
    ∧ ((collate_fn false padTok examples).2).length = examples.length
    ∧ ((collate_fn false padTok examples).1).length = examples.length := by
  refine ⟨?_, ?_, ?_, ?_, ?_, ?_, ?_, ?_⟩
  · simp [collate_fn]; omega
  · have : (examples.map (fun e => e.instance_images)).length = examples.length := by
      simp
    simp only [collate_fn, if_pos rfl]
    rw [← this, List.take_left]
  · have : (examples.map (fun e => e.instance_images)).length = examples.length := by
      simp
    simp only [collate_fn, if_pos rfl]
    rw [← this, List.drop_left]
    simp
  · simp [collate_fn, padToLongest]; omega
  · intro l hl
    exact padToLongest_row_length padTok _ l (by simpa [collate_fn] using hl)
  · intro pr hpr
    exact padToLongest_keeps padTok _ pr (by simpa [collate_fn] using hpr)
  · simp [collate_fn]
  · simp [collate_fn, padToLongest]

/-- `Tensor.mean()` over a flat list of rationals; the empty mean is 0. -/
def tmean (l : List ℚ) : ℚ := l.sum / l.length

/-- Elementwise squared errors of one example: one row of
`F.mse_loss(..., reduction="none")`.  Tensors are batches of flattened
examples, `List (List ℚ)`. -/
def sqErrs (p t : List ℚ) : List ℚ := List.zipWith (fun a b => (a - b) ^ 2) p t

/-- `.mean([1, 2, 3])` of one example: its squared errors averaged over
the channel and spatial dimensions (flattened here). -/
def exampleMSE (p t : List ℚ) : ℚ := tmean (sqErrs p t)

/-- `F.mse_loss(pred, target, reduction="mean")`: total squared error
divided by the total element count. -/
def mseMean (pred target : List (List ℚ)) : ℚ :=
  ((List.zipWith sqErrs pred target).map List.sum).sum
    / ((List.zipWith sqErrs pred target).map List.length).sum

/-- `torch.chunk(x, 2, dim=0)`: split along the batch dimension into a
first chunk of `⌈n/2⌉` rows and the remainder. -/
def chunk2 {β : Type} (l : List β) : List β × List β :=
  (l.take ((l.length + 1) / 2), l.drop ((l.length + 1) / 2))

/-- Loss computation of one training step (lines 901-915): with prior
preservation, chunk prediction and noise in two along the batch
dimension, add the per-example-then-batch mean of the first chunk to
`prior_loss_weight` times the all-element mean of the second; without
it, a single all-element mean squared error. -/
def trainLoss (with_prior_preservation : Bool) (prior_loss_weight : ℚ)
    (noise_pred noise : List (List ℚ)) : ℚ :=
  if with_prior_preservation then
    tmean (List.zipWith exampleMSE (chunk2 noise_pred).1 (chunk2 noise).1)
      + prior_loss_weight * mseMean (chunk2 noise_pred).2 (chunk2 noise).2
  else mseMean noise_pred noise

/-- C1: on a batch of `2B` examples with prior preservation on, the
prediction and the noise are each split into two equal halves of `B`
along the batch dimension — the first half instance, the second half
prior — and the loss is the instance half's per-example mean squared
error averaged over the batch plus `prior_loss_weight` times the mean
squared error over the whole prior half; with prior preservation off,
the loss is one mean squared error over the full batch. -/
theorem prior_preservation_loss (B : Nat) (w : ℚ)
    (noise_pred noise : List (List ℚ))
    (hp : noise_pred.length = 2 * B) (hn : noise.length = 2 * B) :
    ((chunk2 noise_pred).1.length = B ∧ (chunk2 noise_pred).2.length = B
      ∧ (chunk2 noise).1.length = B ∧ (chunk2 noise).2.length = B)
    ∧ trainLoss true w noise_pred noise
        = tmean (List.zipWith exampleMSE (noise_pred.take B) (noise.take B))
          + w * mseMean (noise_pred.drop B) (noise.drop B)
    ∧ trainLoss false w noise_pred noise = mseMean noise_pred noise := by
  have hcp : (noise_pred.length + 1) / 2 = B := by omega
  have hcn : (noise.length + 1) / 2 = B := by omega
  refine ⟨⟨?_, ?_, ?_, ?_⟩, ?_, ?_⟩
  · simp [chunk2, hcp]; omega
  · simp [chunk2, hcp]; omega
  · simp [chunk2, hcn]; omega
  · simp [chunk2, hcn]; omega
  · simp only [trainLoss, if_pos rfl, chunk2, hcp, hcn]
    simp
  · rfl

/-- Witness for C1 on a concrete two-example batch (B = 1). -/
theorem prior_preservation_loss_witness :
    ([[(1 : ℚ), 3], [2, 2]] : List (List ℚ)).length = 2 * 1
    ∧ ([[(0 : ℚ), 1], [1, 0]] : List (List ℚ)).length = 2 * 1
    ∧ (((chunk2 ([[(1 : ℚ), 3], [2, 2]] : List (List ℚ))).1.length = 1
        ∧ (chunk2 ([[(1 : ℚ), 3], [2, 2]] : List (List ℚ))).2.length = 1
        ∧ (chunk2 ([[(0 : ℚ), 1], [1, 0]] : List (List ℚ))).1.length = 1
        ∧ (chunk2 ([[(0 : ℚ), 1], [1, 0]] : List (List ℚ))).2.length = 1)
      ∧ trainLoss true (2 : ℚ) [[(1 : ℚ), 3], [2, 2]] [[(0 : ℚ), 1], [1, 0]]
          = tmean (List.zipWith exampleMSE
              (([[(1 : ℚ), 3], [2, 2]] : List (List ℚ)).take 1)
              (([[(0 : ℚ), 1], [1, 0]] : List (List ℚ)).take 1))
            + 2 * mseMean (([[(1 : ℚ), 3], [2, 2]] : List (List ℚ)).drop 1)
                (([[(0 : ℚ), 1], [1, 0]] : List (List ℚ)).drop 1)
      ∧ trainLoss false (2 : ℚ) [[(1 : ℚ), 3], [2, 2]] [[(0 : ℚ), 1], [1, 0]]
          = mseMean [[(1 : ℚ), 3], [2, 2]] [[(0 : ℚ), 1], [1, 0]]) :=
  ⟨rfl, rfl,
    prior_preservation_loss 1 2 [[(1 : ℚ), 3], [2, 2]] [[(0 : ℚ), 1], [1, 0]] rfl rfl⟩

/-- The session sidecar file as the loader observes it: missing, or
present with a byte size and the outcome of `json.load` on its content
(`none` models content on which `json.load` raises). -/
inductive SessionFile where
  | missing : SessionFile
  | present (size : Nat) (parsed : Option Nat) : SessionFile

/-- Session loading (lines 849-857): the step count defaults to 0, and
the file is read only when it exists with size strictly between 0 and
10000 bytes; on such a file `json.load` runs unguarded, so invalid
content raises (modelled as `Except.error`). -/
def loadSession : SessionFile → Except String Nat
  | SessionFile.missing => Except.ok 0
  | SessionFile.present size parsed =>
    if 0 < size ∧ size < 10000 then
      match parsed with
      | some s => Except.ok s
      | none => Except.error "json.load raised"
    else Except.ok 0

/-- C9 counterexample: a present session file of 7 bytes whose content
is not valid JSON makes the load raise instead of yielding
`session_step = 0`, so corrupt session state can be fatal. -/
theorem loadSession_corrupt_raises :
    loadSession (SessionFile.present 7 none) = Except.error "json.load raised"
    ∧ loadSession (SessionFile.present 7 none) ≠ Except.ok 0 := by
  refine ⟨rfl, ?_⟩
  intro h
  simp [loadSession] at h

/-- C9 (amended): loading yields `session_step = 0` without raising
when the file is missing, empty, or implausibly large (10000 bytes or
more), and yields the parsed value on a readable file of plausible
size; but a plausibly sized file with invalid JSON content raises. -/
theorem loadSession_guard (sz bigSz s : Nat) (parsed : Option Nat)
    (hpos : 0 < sz) (hlt : sz < 10000) (hbig : 10000 ≤ bigSz) :
    loadSession SessionFile.missing = Except.ok 0
    ∧ loadSession (SessionFile.present 0 parsed) = Except.ok 0
    ∧ loadSession (SessionFile.present bigSz parsed) = Except.ok 0
    ∧ loadSession (SessionFile.present sz (some s)) = Except.ok s
    ∧ loadSession (SessionFile.present sz none)
        = Except.error "json.load raised" := by
  refine ⟨rfl, ?_, ?_, ?_, ?_⟩
  · simp [loadSession]
  · simp [loadSession]; omega
  · simp [loadSession, hpos, hlt]
  · simp [loadSession, hpos, hlt]

/-- Witness for C9 at concrete sizes and content. -/
theorem loadSession_guard_witness :
    0 < 7 ∧ 7 < 10000 ∧ 10000 ≤ 12345
    ∧ (loadSession SessionFile.missing = Except.ok 0
      ∧ loadSession (SessionFile.present 0 (some 3)) = Except.ok 0
      ∧ loadSession (SessionFile.present 12345 (some 3)) = Except.ok 0
      ∧ loadSession (SessionFile.present 7 (some 5)) = Except.ok 5
      ∧ loadSession (SessionFile.present 7 none)
          = Except.error "json.load raised") :=
  ⟨by decide, by decide, by decide,
    loadSession_guard 7 12345 5 (some 3) (by decide) (by decide) (by decide)⟩

/-- Filesystem and subprocess actions the periodic checkpoint block can
perform, in program order. -/
inductive SaveEffect where
  | mkSaveDir : SaveEffect
  | printCkpt : SaveEffect
  | savePipeline : SaveEffect
  | restoreFrozenEncoder : SaveEffect
  | convertToCkpt : SaveEffect
  | removeSaveDir : SaveEffect
deriving DecidableEq

/-- Configuration read by the periodic checkpoint block. -/
structure SaveCfg where
  save_n_steps : Nat
  max_train_steps : Nat
  isMain : Bool
  train_text_encoder : Bool
  frozenExists : Bool
  save_intermediary_dirs : Nat

/-- Periodic checkpoint block of one loop iteration (lines 964-996):
active only when `save_n_steps ≥ 200`; fires when `global_step + 1`
equals the running target `i` and `global_step + 1` is still below the
maximum; every process then creates the working directory and prints,
and the main process alone saves the pipeline, restores a frozen
text-encoder snapshot when one exists, invokes the converter, advances
the target by the interval and removes the working directory unless
intermediate directories are kept.  Returns the new target and the
performed actions. -/
def saveCheckpointStep (cfg : SaveCfg) (global_step i : Nat) :
    Nat × List SaveEffect :=
  if 200 ≤ cfg.save_n_steps then
    if global_step + 1 < cfg.max_train_steps ∧ global_step + 1 = i then
      if cfg.isMain then
        (i + cfg.save_n_steps,
          [SaveEffect.mkSaveDir, SaveEffect.printCkpt, SaveEffect.savePipeline]
            ++ (if cfg.train_text_encoder ∧ cfg.frozenExists then
                  [SaveEffect.restoreFrozenEncoder] else [])
            ++ [SaveEffect.convertToCkpt]
            ++ (if cfg.save_intermediary_dirs = 0 then
                  [SaveEffect.removeSaveDir] else []))
      else (i, [SaveEffect.mkSaveDir, SaveEffect.printCkpt])
    else (i, [])
  else (i, [])

/-- C5 counterexample: on a non-coordinating process, a firing of the
periodic trigger is not a no-op — the working directory is still
created and the checkpoint message printed (lines 965-974 run on every
process; only lines 976-996 are guarded by `is_main_process`). -/
theorem periodic_checkpoint_nonmain_not_noop :
    (saveCheckpointStep (SaveCfg.mk 200 1000 false false false 0) 99 100).2
        = [SaveEffect.mkSaveDir, SaveEffect.printCkpt]
    ∧ (saveCheckpointStep (SaveCfg.mk 200 1000 false false false 0) 99 100).2
        ≠ [] := by
  refine ⟨by decide, by decide⟩

/-- C5 (amended): the periodic export is active only when
`save_n_steps ≥ 200` and fires exactly when `global_step + 1` equals
the running target and is below the maximum step count; on a firing
the main process saves the pipeline, restores the frozen text-encoder
snapshot exactly when one exists and the text encoder is trained,
invokes the converter, deletes the working directory unless
intermediate retention is requested, and advances the target by the
interval; a firing on a non-coordinating process only creates the
working directory and prints, leaving the target unchanged; outside a
firing nothing happens. -/
theorem periodic_checkpoint_behavior (cfg : SaveCfg) (g i : Nat)
    (hact : 200 ≤ cfg.save_n_steps) (htar : g + 1 = i)
    (hrem : g + 1 < cfg.max_train_steps) :
    (cfg.isMain = true →
      (saveCheckpointStep cfg g i).1 = i + cfg.save_n_steps
      ∧ SaveEffect.savePipeline ∈ (saveCheckpointStep cfg g i).2
      ∧ SaveEffect.convertToCkpt ∈ (saveCheckpointStep cfg g i).2
      ∧ (SaveEffect.restoreFrozenEncoder ∈ (saveCheckpointStep cfg g i).2
          ↔ (cfg.train_text_encoder = true ∧ cfg.frozenExists = true))
      ∧ (SaveEffect.removeSaveDir ∈ (saveCheckpointStep cfg g i).2
          ↔ cfg.save_intermediary_dirs = 0))
    ∧ (cfg.isMain = false →
        (saveCheckpointStep cfg g i).1 = i
        ∧ (saveCheckpointStep cfg g i).2
            = [SaveEffect.mkSaveDir, SaveEffect.printCkpt])
    ∧ (∀ g' i', ¬(g' + 1 < cfg.max_train_steps ∧ g' + 1 = i') →
        saveCheckpointStep cfg g' i' = (i', []))
    ∧ (∀ cfg' : SaveCfg, ∀ g' i', cfg'.save_n_steps < 200 →
        saveCheckpointStep cfg' g' i' = (i', [])) := by
  have hfire : (g + 1 < cfg.max_train_steps ∧ g + 1 = i) := ⟨hrem, htar⟩
  refine ⟨?_, ?_, ?_, ?_⟩
  · intro hmain
    rw [saveCheckpointStep, if_pos hact, if_pos hfire, if_pos hmain]
    refine ⟨rfl, by simp, by simp, ?_, ?_⟩
    · by_cases hf : cfg.train_text_encoder = true ∧ cfg.frozenExists = true
      · rw [if_pos hf]
        simp [hf]
      · rw [if_neg hf]
        split <;> simp_all
    · by_cases hd : cfg.save_intermediary_dirs = 0
      · rw [if_pos hd]
        simp [hd]
      · rw [if_neg hd]
        split <;> simp_all
  · intro hmain
    rw [saveCheckpointStep, if_pos hact, if_pos hfire, if_neg (by simp [hmain])]
    exact ⟨rfl, rfl⟩
  · intro g' i' hno
    rw [saveCheckpointStep, if_pos hact, if_neg hno]
  · intro cfg' g' i' hlow
    rw [saveCheckpointStep, if_neg (by omega)]

/-- Witness for C5 on the main process with a 200-step interval. -/
theorem periodic_checkpoint_behavior_witness :
    200 ≤ (SaveCfg.mk 200 1000 true true true 0).save_n_steps
    ∧ 199 + 1 = 200
    ∧ 199 + 1 < (SaveCfg.mk 200 1000 true true true 0).max_train_steps
    ∧ (((SaveCfg.mk 200 1000 true true true 0).isMain = true →
        (saveCheckpointStep (SaveCfg.mk 200 1000 true true true 0) 199 200).1
            = 200 + (SaveCfg.mk 200 1000 true true true 0).save_n_steps
        ∧ SaveEffect.savePipeline
            ∈ (saveCheckpointStep (SaveCfg.mk 200 1000 true true true 0) 199 200).2
        ∧ SaveEffect.convertToCkpt
            ∈ (saveCheckpointStep (SaveCfg.mk 200 1000 true true true 0) 199 200).2
        ∧ (SaveEffect.restoreFrozenEncoder
            ∈ (saveCheckpointStep (SaveCfg.mk 200 1000 true true true 0) 199 200).2
            ↔ ((SaveCfg.mk 200 1000 true true true 0).train_text_encoder = true
              ∧ (SaveCfg.mk 200 1000 true true true 0).frozenExists = true))
        ∧ (SaveEffect.removeSaveDir
            ∈ (saveCheckpointStep (SaveCfg.mk 200 1000 true true true 0) 199 200).2
            ↔ (SaveCfg.mk 200 1000 true true true 0).save_intermediary_dirs = 0))
      ∧ ((SaveCfg.mk 200 1000 true true true 0).isMain = false →
          (saveCheckpointStep (SaveCfg.mk 200 1000 true true true 0) 199 200).1 = 200
          ∧ (saveCheckpointStep (SaveCfg.mk 200 1000 true true true 0) 199 200).2
              = [SaveEffect.mkSaveDir, SaveEffect.printCkpt])
      ∧ (∀ g' i',
          ¬(g' + 1 < (SaveCfg.mk 200 1000 true true true 0).max_train_steps
            ∧ g' + 1 = i') →
          saveCheckpointStep (SaveCfg.mk 200 1000 true true true 0) g' i' = (i', []))
      ∧ (∀ cfg' : SaveCfg, ∀ g' i', cfg'.save_n_steps < 200 →
          saveCheckpointStep cfg' g' i' = (i', []))) :=
  ⟨by decide, by decide, by decide,
    periodic_checkpoint_behavior (SaveCfg.mk 200 1000 true true true 0) 199 200
      (by decide) (by decide) (by decide)⟩

/-- Configuration read by the freeze transition of the training loop. -/
structure FreezeCfg where
  train_text_encoder : Bool
  stop_text_encoder_training : Nat
  max_train_steps : Nat
  isMain : Bool

/-- Observable loop state for the freeze transition: the global step,
the number of optimizer updates applied to the live text-encoder
parameters, the contents of `<output_dir>/text_encoder_frozen`
(recorded as the update count the snapshotted weights correspond to),
and how many times the snapshot block has run. -/
structure FreezeState where
  global_step : Nat
  textUpdates : Nat
  frozenSnapshot : Option Nat
  freezeFires : Nat
deriving DecidableEq

/-- Whether the optimizer step of this iteration advances the live
text-encoder parameters: `params_to_optimize` is fixed once at line
700 and contains the text encoder exactly when `train_text_encoder`
is set; nothing ever removes it. -/
def nextUpdates (cfg : FreezeCfg) (s : FreezeState) : Nat :=
  if cfg.train_text_encoder then s.textUpdates + 1 else s.textUpdates

/-- One batch iteration of the training loop at
`gradient_accumulation_steps = 1`, restricted to what the freeze
transition observes: the optimizer step (line 925), the global-step
increment (line 932), the break at the step ceiling (lines 943-944),
and the freeze block (lines 946-962), which writes the current
text-encoder weights to the snapshot directory on the main process
when `global_step == stop_text_encoder_training` and
`global_step >= 30`. -/
def freezeIter (cfg : FreezeCfg) (s : FreezeState) : FreezeState :=
  if cfg.max_train_steps ≤ s.global_step + 1 then
    FreezeState.mk (s.global_step + 1) (nextUpdates cfg s)
      s.frozenSnapshot s.freezeFires
  else if cfg.train_text_encoder = true
      ∧ s.global_step + 1 = cfg.stop_text_encoder_training
      ∧ 30 ≤ s.global_step + 1 then
    if cfg.isMain then
      FreezeState.mk (s.global_step + 1) (nextUpdates cfg s)
        (some (nextUpdates cfg s)) (s.freezeFires + 1)
    else
      FreezeState.mk (s.global_step + 1) (nextUpdates cfg s)
        s.frozenSnapshot s.freezeFires
  else
    FreezeState.mk (s.global_step + 1) (nextUpdates cfg s)
      s.frozenSnapshot s.freezeFires

/-- Run `n` batch iterations. -/
def freezeRun (cfg : FreezeCfg) (n : Nat) (s : FreezeState) : FreezeState :=
  match n with
  | 0 => s
  | m + 1 => freezeIter cfg (freezeRun cfg m s)

/-- The loop starts at global step 0 with an empty snapshot. -/
def initFreezeState : FreezeState := FreezeState.mk 0 0 none 0

set_option maxRecDepth 10000 in
/-- C4 counterexample: with `stop_text_encoder_training = 30` on the
main process, the snapshot is taken at step 30, yet the next optimizer
step still updates the live text-encoder parameters (31 updates after
31 steps, versus the 30 recorded in the snapshot) — the parameters do
not remain frozen for the rest of the run. -/
theorem text_encoder_updates_after_freeze :
    (freezeRun (FreezeCfg.mk true 30 40 true) 30 initFreezeState).frozenSnapshot
        = some 30
    ∧ (freezeRun (FreezeCfg.mk true 30 40 true) 30 initFreezeState).textUpdates = 30
    ∧ (freezeRun (FreezeCfg.mk true 30 40 true) 31 initFreezeState).frozenSnapshot
        = some 30
    ∧ (freezeRun (FreezeCfg.mk true 30 40 true) 31 initFreezeState).textUpdates = 31
    ∧ (freezeRun (FreezeCfg.mk true 30 40 true) 31 initFreezeState).textUpdates
        ≠ (freezeRun (FreezeCfg.mk true 30 40 true) 30 initFreezeState).textUpdates := by
  refine ⟨by decide, by decide, by decide, by decide, by decide⟩

/-- C4 (amended): with the text encoder trained,
`30 ≤ stop_text_encoder_training < max_train_steps` and accumulation
of one, the snapshot block fires exactly once over the run — at the
step equal to the threshold, on the coordinating process only — and
the snapshot thereafter permanently holds the weights as of that step;
the live text-encoder parameters, however, keep receiving one
optimizer update per step for the remainder of the run. -/
theorem freeze_transition_once (cfg : FreezeCfg) (n : Nat)
    (htrain : cfg.train_text_encoder = true)
    (h30 : 30 ≤ cfg.stop_text_encoder_training)
    (hstop : cfg.stop_text_encoder_training < cfg.max_train_steps)
    (hn : n ≤ cfg.max_train_steps) :
    (freezeRun cfg n initFreezeState).global_step = n
    ∧ (freezeRun cfg n initFreezeState).textUpdates = n
    ∧ (freezeRun cfg n initFreezeState).frozenSnapshot
        = (if cfg.isMain = true ∧ cfg.stop_text_encoder_training ≤ n
            then some cfg.stop_text_encoder_training else none)
    ∧ (freezeRun cfg n initFreezeState).freezeFires
        = (if cfg.isMain = true ∧ cfg.stop_text_encoder_training ≤ n
            then 1 else 0) := by
  induction n with
  | zero =>
    refine ⟨rfl, rfl, ?_, ?_⟩
    · rw [if_neg (by rintro ⟨-, b⟩; omega)]; rfl
    · rw [if_neg (by rintro ⟨-, b⟩; omega)]; rfl
  | succ m ih =>
    obtain ⟨ihg, ihu, ihs, ihf⟩ := ih (by omega)
    have hiter : freezeRun cfg (m + 1) initFreezeState
        = freezeIter cfg (freezeRun cfg m initFreezeState) := rfl
    have hupd : nextUpdates cfg (freezeRun cfg m initFreezeState) = m + 1 := by
      rw [nextUpdates, htrain, ihu]
      simp
    rw [hiter, freezeIter, ihg, hupd, ihs, ihf]
    split_ifs <;> refine ⟨rfl, rfl, ?_, ?_⟩ <;> simp_all <;> omega

set_option maxRecDepth 10000 in
/-- Witness for C4 (amended) after 35 of 40 steps with threshold 30. -/
theorem freeze_transition_once_witness :
    (FreezeCfg.mk true 30 40 true).train_text_encoder = true
    ∧ 30 ≤ (FreezeCfg.mk true 30 40 true).stop_text_encoder_training
    ∧ (FreezeCfg.mk true 30 40 true).stop_text_encoder_training
        < (FreezeCfg.mk true 30 40 true).max_train_steps
    ∧ 35 ≤ (FreezeCfg.mk true 30 40 true).max_train_steps
    ∧ ((freezeRun (FreezeCfg.mk true 30 40 true) 35 initFreezeState).global_step = 35
      ∧ (freezeRun (FreezeCfg.mk true 30 40 true) 35 initFreezeState).textUpdates = 35
      ∧ (freezeRun (FreezeCfg.mk true 30 40 true) 35 initFreezeState).frozenSnapshot
          = (if (FreezeCfg.mk true 30 40 true).isMain = true
              ∧ (FreezeCfg.mk true 30 40 true).stop_text_encoder_training ≤ 35
              then some (FreezeCfg.mk true 30 40 true).stop_text_encoder_training
              else none)
      ∧ (freezeRun (FreezeCfg.mk true 30 40 true) 35 initFreezeState).freezeFires
          = (if (FreezeCfg.mk true 30 40 true).isMain = true
              ∧ (FreezeCfg.mk true 30 40 true).stop_text_encoder_training ≤ 35
              then 1 else 0)) :=
  ⟨rfl, by decide, by decide, by decide,
    freeze_transition_once (FreezeCfg.mk true 30 40 true) 35 rfl
      (by decide) (by decide) (by decide)⟩

/-- Global-step trace of one epoch of the inner loop at one
optimization step per batch: each batch increments `global_step`
(line 932) and the loop breaks once the ceiling is reached
(lines 943-944). -/
def runEpochSteps (max_train_steps : Nat) : Nat → Nat → Nat
  | g, 0 => g
  | g, b + 1 =>
    if max_train_steps ≤ g + 1 then g + 1
    else runEpochSteps max_train_steps (g + 1) b

/-- The epoch loop (line 861): run the stated number of epochs, each
over `steps_per_epoch` batches; the outer loop has no break of its
own. -/
def runEpochsSteps (max_train_steps steps_per_epoch : Nat) : Nat → Nat → Nat
  | 0, g => g
  | e + 1, g => runEpochsSteps max_train_steps steps_per_epoch e
      (runEpochSteps max_train_steps g steps_per_epoch)

/-- `math.ceil(a / b)` on positive integers. -/
def ceilDiv (a b : Nat) : Nat := (a + b - 1) / b

/-- Number of optimization steps a full run executes:
`num_train_epochs` is recomputed as
`ceil(max_train_steps / num_update_steps_per_epoch)` (line 821) and
the loop starts from `global_step = 0` (line 845). -/
def stepsExecuted (max_train_steps steps_per_epoch : Nat) : Nat :=
  runEpochsSteps max_train_steps steps_per_epoch
    (ceilDiv max_train_steps steps_per_epoch) 0

/-- End-of-run session update (line 1030): the loaded `session_step`
plus `max_train_steps`, persisted to the sidecar file. -/
def sessionAfterRun (loaded max_train_steps : Nat) : Nat :=
  loaded + max_train_steps

/-- Final checkpoint filename (line 1040):
`<basename>_<session_step>.ckpt`. -/
def finalCkptName (base : List Char) (session_step : Nat) : List Char :=
  base ++ ('_' :: (Nat.repr session_step).toList) ++ ".ckpt".toList

lemma runEpochSteps_zero (M g : Nat) : runEpochSteps M g 0 = g := rfl

lemma runEpochSteps_succ (M g b : Nat) :
    runEpochSteps M g (b + 1)
      = if M ≤ g + 1 then g + 1 else runEpochSteps M (g + 1) b := rfl

lemma runEpochsSteps_zero (M spe g : Nat) : runEpochsSteps M spe 0 g = g := rfl

lemma runEpochsSteps_succ (M spe e g : Nat) :
    runEpochsSteps M spe (e + 1) g
      = runEpochsSteps M spe e (runEpochSteps M g spe) := rfl

/-- Below the ceiling, an epoch of `b` batches advances the global step
to `min M (g + b)`: all `b` batches run unless the ceiling cuts the
epoch short at exactly `M`. -/
lemma runEpochSteps_min (M : Nat) : ∀ b g, g < M →
    runEpochSteps M g b = min M (g + b) := by
  intro b
  induction b with
  | zero =>
    intro g hg
    rw [runEpochSteps_zero]
    omega
  | succ b ih =>
    intro g hg
    rw [runEpochSteps_succ]
    by_cases h : M ≤ g + 1
    · rw [if_pos h]; omega
    · rw [if_neg h, ih (g + 1) (by omega)]; omega

/-- The bracketing of `max` by multiples of `steps_per_epoch` that the
ceiling division produces. -/
lemma ceilDiv_bracket (M spe : Nat) (hspe : 1 ≤ spe) (hM : 1 ≤ M) :
    ∃ m, ceilDiv M spe = m + 1 ∧ m * spe < M ∧ M ≤ (m + 1) * spe := by
  refine ⟨(M - 1) / spe, ?_, ?_, ?_⟩
  · rw [ceilDiv, show M + spe - 1 = (M - 1) + spe by omega,
      Nat.add_div_right _ (by omega)]
  · exact Nat.lt_of_le_of_lt (Nat.div_mul_le_self _ _) (by omega)
  · have hmod := Nat.div_add_mod (M - 1) spe
    have hr : (M - 1) % spe < spe := Nat.mod_lt _ (by omega)
    have hlt : M - 1 < ((M - 1) / spe + 1) * spe := by
      have hexp : ((M - 1) / spe + 1) * spe = spe * ((M - 1) / spe) + spe := by
        ring
      rw [hexp]
      generalize spe * ((M - 1) / spe) = t at hmod ⊢
      generalize (M - 1) % spe = r at hmod hr
      omega
    exact Nat.le_of_pred_lt hlt

/-- Starting strictly below the ceiling with exactly enough epochs left
to cover it, the epoch loop stops at exactly `M` global steps: the
last needed epoch breaks at `M`, and it is also the final epoch, so no
extra epoch pushes the counter past the ceiling. -/
lemma runEpochsSteps_reach (M spe : Nat) (_hspe : 1 ≤ spe) :
    ∀ m g, g + m * spe < M → M ≤ g + (m + 1) * spe →
      runEpochsSteps M spe (m + 1) g = M := by
  intro m
  induction m with
  | zero =>
    intro g h1 h2
    rw [runEpochsSteps_succ, runEpochsSteps_zero,
      runEpochSteps_min M spe g (by omega)]
    omega
  | succ m ih =>
    intro g h1 h2
    have hle : spe ≤ (m + 1) * spe := by
      calc spe = 1 * spe := (Nat.one_mul spe).symm
        _ ≤ (m + 1) * spe := Nat.mul_le_mul_right spe (by omega)
    have hgM : g < M := Nat.lt_of_le_of_lt (Nat.le_add_right _ _) h1
    have hgspe : g + spe ≤ M :=
      Nat.le_of_lt (Nat.lt_of_le_of_lt (Nat.add_le_add_left hle g) h1)
    rw [runEpochsSteps_succ, runEpochSteps_min M spe g hgM,
      min_eq_right (by omega)]
    apply ih (g + spe)
    · rw [Nat.succ_mul] at h1
      generalize m * spe = P at h1 ⊢
      omega
    · rw [Nat.succ_mul (m + 1) spe] at h2
      generalize (m + 1) * spe = Q at h2 ⊢
      omega

/-- A full run executes exactly `max_train_steps` optimization steps. -/
lemma stepsExecuted_eq (M spe : Nat) (hspe : 1 ≤ spe) :
    stepsExecuted M spe = M := by
  by_cases hM : M = 0
  · subst hM
    rw [stepsExecuted, show ceilDiv 0 spe = 0 from by
        rw [ceilDiv]; exact Nat.div_eq_of_lt (by omega),
      runEpochsSteps_zero]
  · obtain ⟨m, hceil, hb1, hb2⟩ := ceilDiv_bracket M spe hspe (by omega)
    rw [stepsExecuted, hceil]
    exact runEpochsSteps_reach M spe hspe m 0 (by simpa using hb1)
      (by simpa using hb2)

/-- C3: a full run executes exactly `max_train_steps` optimization
steps; the end-of-run persistence adds exactly that executed count to
the `session_step` loaded at startup; and after a fresh run of `S1`
steps followed by a run of `S2` steps against the same output
directory, the final checkpoint filename encodes `S1 + S2`. -/
theorem session_resumption (S1 S2 spe1 spe2 loaded : Nat) (base : List Char)
    (hspe1 : 1 ≤ spe1) (hspe2 : 1 ≤ spe2) :
    stepsExecuted S1 spe1 = S1
    ∧ stepsExecuted S2 spe2 = S2
    ∧ sessionAfterRun loaded S1 = loaded + stepsExecuted S1 spe1
    ∧ sessionAfterRun (sessionAfterRun 0 S1) S2 = S1 + S2
    ∧ finalCkptName base (sessionAfterRun (sessionAfterRun 0 S1) S2)
        = base ++ ('_' :: (Nat.repr (S1 + S2)).toList) ++ ".ckpt".toList := by
  have e1 := stepsExecuted_eq S1 spe1 hspe1
  have e2 := stepsExecuted_eq S2 spe2 hspe2
  refine ⟨e1, e2, ?_, ?_, ?_⟩
  · rw [e1, sessionAfterRun]
  · rw [sessionAfterRun, sessionAfterRun, Nat.zero_add]
  · rw [finalCkptName, sessionAfterRun, sessionAfterRun, Nat.zero_add]

/-- Witness for C3: a 3-step run then a 2-step run over epochs of 2
and 5 batches, a loaded count of 4 for the general persistence fact,
and the checkpoint basename `subj`. -/
theorem session_resumption_witness :
    1 ≤ 2 ∧ 1 ≤ 5
    ∧ (stepsExecuted 3 2 = 3
      ∧ stepsExecuted 2 5 = 2
      ∧ sessionAfterRun 4 3 = 4 + stepsExecuted 3 2
      ∧ sessionAfterRun (sessionAfterRun 0 3) 2 = 3 + 2
      ∧ finalCkptName ("subj".toList) (sessionAfterRun (sessionAfterRun 0 3) 2)
          = "subj".toList ++ ('_' :: (Nat.repr (3 + 2)).toList) ++ ".ckpt".toList) :=
  ⟨by decide, by decide,
    session_resumption 3 2 2 5 4 ("subj".toList) (by decide) (by decide)⟩

end TrainDreambooth
